import Mathlib

/-!
Shallow embedding of the glypto metadata-scraper core (provider registry,
provider strategies, metadata accumulator, traversal driver), translated
from the TypeScript sources.  JavaScript-specific semantics (string
truthiness, `||` defaulting, `?.` optional chaining) are made explicit by
small helper functions.
-/

/-- JavaScript truthiness of a `string | null` value: `null` and the empty
string are falsy, every other string is truthy. -/
def strTruthy : Option String → Bool
  | some s => if s = "" then false else true
  | none => false

/-- JavaScript `a || b` on `string | null` values: yields `a` when `a` is
truthy, otherwise `b`. -/
def jsOrOpt (a b : Option String) : Option String :=
  if strTruthy a then a else b

/-- JavaScript `a || d` where `d` is a plain string default: a falsy `a`
(`null` or `""`) is replaced by `d`. -/
def jsOrStr (a : Option String) (d : String) : String :=
  match a with
  | some s => if s = "" then d else s
  | none => d

/-- JavaScript `a || undefined`: maps a falsy value (`null` or `""`) to
`undefined` (here `none`). -/
def truthyOpt (a : Option String) : Option String :=
  match a with
  | some s => if s = "" then none else some s
  | none => none

/-- String prefix test (`String.prototype.startsWith`), implemented over
the character list so it evaluates by kernel reduction. -/
def strStartsWith (s p : String) : Bool :=
  p.data.isPrefixOf s.data

/-- JavaScript `x?.startsWith(p)` used in a boolean position: `false` when
`x` is `null`. -/
def optStartsWith (a : Option String) (p : String) : Bool :=
  match a with
  | some s => strStartsWith s p
  | none => false

/-- JavaScript `s.slice(n)`: drop the first `n` characters (the empty
string when `s` is shorter). -/
def strDrop (s : String) (n : Nat) : String :=
  String.mk (s.data.drop n)

/-- JavaScript whitespace as removed by `String.prototype.trim`. -/
def jsWhitespace (c : Char) : Bool :=
  c = ' ' || c = '\t' || c = '\n' || c = '\r' || c = '\x0b' || c = '\x0c' || c = ' '

/-- JavaScript `s.trim()`: strip leading and trailing whitespace. -/
def jsTrim (s : String) : String :=
  String.mk (((s.data.dropWhile jsWhitespace).reverse.dropWhile jsWhitespace).reverse)

/-- Lower-casing of a tag name (`tagName.toLowerCase()`; tag names are
ASCII). -/
def lowerTag (s : String) : String :=
  String.mk (s.data.map Char.toLower)

/-- A markup node: tag name, named string attributes (an attribute may be
present with the empty string as value, distinct from absent), and optional
text content (absent vs empty are distinguished; element text content that
is the empty string behaves like absent under JS truthiness, which the code
relies on). -/
structure Element where
  tagName : String
  attrs : List (String × String)
  textContent : Option String

/-- DOM `getAttribute`: the attribute's value, or `null` when absent. -/
def Element.getAttribute (el : Element) (a : String) : Option String :=
  (el.attrs.find? (fun kv => kv.1 = a)).map (fun kv => kv.2)

/-- A parsed document, as the ordered list of its elements (document
order); the query helpers below model the selector calls the driver makes
against the external DOM collaborator. -/
abbrev Document := List Element

/-- Model of `document.querySelectorAll(tag)`: all elements with the given
tag name (HTML tag names compare case-insensitively). -/
def querySelectorAllTag (d : Document) (tag : String) : List Element :=
  d.filter (fun el => lowerTag el.tagName = tag)

/-- Model of `document.querySelector(tag)`: the first element with the
given tag name, if any. -/
def querySelectorTag (d : Document) (tag : String) : Option Element :=
  (querySelectorAllTag d tag).head?

/-- Model of `document.querySelectorAll("link[rel]")`: `link` elements on
which the `rel` attribute is present (with any value). -/
def querySelectorLinkRel (d : Document) : List Element :=
  d.filter (fun el => lowerTag el.tagName = "link" && (el.getAttribute "rel").isSome)

/-- Model of `document.querySelectorAll("link[rel='alternate']")`: `link`
elements whose `rel` attribute equals `alternate`. -/
def querySelectorLinkAlternate (d : Document) : List Element :=
  d.filter (fun el => lowerTag el.tagName = "link" && el.getAttribute "rel" = some "alternate")

/-- A provider's per-field value lists (`Map<string, string[]>`),
insertion-ordered. -/
abbrev FieldMap := List (String × List String)

/-- Lookup in a `FieldMap` (`data.get(key)`). -/
def fmGet (m : FieldMap) (k : String) : Option (List String) :=
  (m.find? (fun kv => kv.1 = k)).map (fun kv => kv.2)

/-- The per-provider data aggregation (`ProviderData`): provider name →
field map. -/
abbrev ProviderData := List (String × FieldMap)

/-- Lookup in `ProviderData` (`providerData[provider.name]`). -/
def pdGet (pd : ProviderData) (name : String) : Option FieldMap :=
  (pd.find? (fun kv => kv.1 = name)).map (fun kv => kv.2)

/-- Append `value` to the list at `key`, creating the entry on first
write, insertion order preserved (`Metadata.addData` inner level). -/
def fmAppend (m : FieldMap) (key value : String) : FieldMap :=
  if (m.find? (fun kv => kv.1 = key)).isSome then
    m.map (fun kv => if kv.1 = key then (kv.1, kv.2 ++ [value]) else kv)
  else
    m ++ [(key, [value])]

/-- Append at the provider level, creating the provider's map on first
write (`Metadata.addData` outer level). -/
def pdAppend (pd : ProviderData) (name key value : String) : ProviderData :=
  if (pd.find? (fun kv => kv.1 = name)).isSome then
    pd.map (fun kv => if kv.1 = name then (kv.1, fmAppend kv.2 key value) else kv)
  else
    pd ++ [(name, fmAppend [] key value)]

/-- The `MetadataProvider` contract: a stable name, a numeric priority
(fractional priorities are legal, so priorities are rationals), a
recognition predicate, a node extractor and a per-field value resolver. -/
structure Provider where
  name : String
  priority : Rat
  canHandle : Element → Bool
  scrape : Element → Option (String × String)
  getValue : String → FieldMap → Option String

/-- The field resolver shared verbatim by every concrete provider:
`values && values.length > 0 ? values[0] : undefined`. -/
def getValueDefault (key : String) (data : FieldMap) : Option String :=
  match fmGet data key with
  | some values => values.head?
  | none => none

/-- `OpenGraphProvider.canHandle`:
`(property?.startsWith('og:') || name?.startsWith('og:')) ?? false`. -/
def openGraphCanHandle (el : Element) : Bool :=
  optStartsWith (el.getAttribute "property") "og:" ||
    optStartsWith (el.getAttribute "name") "og:"

/-- `OpenGraphProvider.scrape`: key is `(property || name).slice(3)`,
value is the `content` attribute; `null` when the chosen attribute or
`content` is falsy or the node is not recognized. -/
def openGraphScrape (el : Element) : Option (String × String) :=
  let property := jsOrOpt (el.getAttribute "property") (el.getAttribute "name")
  let content := el.getAttribute "content"
  if strTruthy property && strTruthy content && openGraphCanHandle el then
    some (strDrop (property.getD "") 3, content.getD "")
  else
    none

/-- The `OpenGraphProvider` instance (name `openGraph`, priority 1). -/
def openGraphProvider : Provider :=
  { name := "openGraph", priority := 1, canHandle := openGraphCanHandle,
    scrape := openGraphScrape, getValue := getValueDefault }

/-- `TwitterProvider.canHandle`:
`(property?.startsWith('twitter:') || name?.startsWith('twitter:')) ?? false`. -/
def twitterCanHandle (el : Element) : Bool :=
  optStartsWith (el.getAttribute "property") "twitter:" ||
    optStartsWith (el.getAttribute "name") "twitter:"

/-- `TwitterProvider.scrape`: key is `(property || name).slice(8)`, value
is the `content` attribute. -/
def twitterScrape (el : Element) : Option (String × String) :=
  let property := jsOrOpt (el.getAttribute "property") (el.getAttribute "name")
  let content := el.getAttribute "content"
  if strTruthy property && strTruthy content && twitterCanHandle el then
    some (strDrop (property.getD "") 8, content.getD "")
  else
    none

/-- The `TwitterProvider` instance (name `twitter`, priority 2). -/
def twitterProvider : Provider :=
  { name := "twitter", priority := 2, canHandle := twitterCanHandle,
    scrape := twitterScrape, getValue := getValueDefault }

/-- `StandardMetaProvider.canHandle`: `!!(content && (name || property) &&
!name?.startsWith('og:') && !name?.startsWith('twitter:') &&
!property?.startsWith('og:') && !property?.startsWith('twitter:'))`.
Note the source never inspects the element's tag name. -/
def standardMetaCanHandle (el : Element) : Bool :=
  let property := el.getAttribute "property"
  let nm := el.getAttribute "name"
  let content := el.getAttribute "content"
  strTruthy content && (strTruthy nm || strTruthy property) &&
    !(optStartsWith nm "og:") && !(optStartsWith nm "twitter:") &&
    !(optStartsWith property "og:") && !(optStartsWith property "twitter:")

/-- `StandardMetaProvider.scrape`: key is `name || property`, value is the
`content` attribute. -/
def standardMetaScrape (el : Element) : Option (String × String) :=
  let nm := jsOrOpt (el.getAttribute "name") (el.getAttribute "property")
  let content := el.getAttribute "content"
  if strTruthy nm && strTruthy content && standardMetaCanHandle el then
    some (nm.getD "", content.getD "")
  else
    none

/-- The `StandardMetaProvider` instance (name `meta`, priority 3). -/
def standardMetaProvider : Provider :=
  { name := "meta", priority := 3, canHandle := standardMetaCanHandle,
    scrape := standardMetaScrape, getValue := getValueDefault }

/-- `OtherElementsProvider.canHandle`: `title`, `h1`, or `link` with a
truthy `rel` attribute. -/
def otherCanHandle (el : Element) : Bool :=
  let tagName := lowerTag el.tagName
  tagName = "title" || tagName = "h1" ||
    (tagName = "link" && strTruthy (el.getAttribute "rel"))

/-- `OtherElementsProvider.scrape`: trimmed text content for `title`/`h1`
(only when `textContent` is truthy), `href` for `link` with `rel` equal to
`icon` or `shortcut icon` (both `rel` and `href` truthy). -/
def otherScrape (el : Element) : Option (String × String) :=
  let tagName := lowerTag el.tagName
  if tagName = "title" && strTruthy el.textContent then
    some ("title", jsTrim (el.textContent.getD ""))
  else if tagName = "h1" && strTruthy el.textContent then
    some ("firstHeading", jsTrim (el.textContent.getD ""))
  else if tagName = "link" then
    match el.getAttribute "rel", el.getAttribute "href" with
    | some rel, some href =>
      if rel ≠ "" && href ≠ "" then
        if rel = "icon" then some ("icon", href)
        else if rel = "shortcut icon" then some ("shortcut icon", href)
        else none
      else none
    | _, _ => none
  else
    none

/-- The `OtherElementsProvider` instance (name `other`, priority 4). -/
def otherElementsProvider : Provider :=
  { name := "other", priority := 4, canHandle := otherCanHandle,
    scrape := otherScrape, getValue := getValueDefault }

/-- The registry's ordering relation: ascending numeric priority (the
comparator `(a, b) => a.priority - b.priority`). -/
def priRel (a b : Provider) : Prop := a.priority ≤ b.priority

instance : DecidableRel priRel := fun a b =>
  inferInstanceAs (Decidable (a.priority ≤ b.priority))

instance : IsTotal Provider priRel := ⟨fun a b => le_total a.priority b.priority⟩

instance : IsTrans Provider priRel := ⟨fun _ _ _ h h' => le_trans h h'⟩

/-- `ProviderRegistry`: owns an ordered sequence of providers. -/
structure ProviderRegistry where
  providers : List Provider

/-- `registerProvider`: push, then re-sort by ascending priority.
JavaScript `Array.prototype.sort` is stable, modelled by a stable
insertion sort. -/
def ProviderRegistry.registerProvider (r : ProviderRegistry) (p : Provider) : ProviderRegistry :=
  ⟨(r.providers ++ [p]).insertionSort priRel⟩

/-- The registry constructor: registers each supplied provider in order. -/
def mkRegistry (ps : List Provider) : ProviderRegistry :=
  ps.foldl ProviderRegistry.registerProvider ⟨[]⟩

/-- `getProviders`: returns a copy of the ordered sequence (copying is the
identity on immutable lists). -/
def ProviderRegistry.getProviders (r : ProviderRegistry) : List Provider :=
  r.providers

/-- `getProvider(name)`: first provider with the given name, if any. -/
def ProviderRegistry.getProvider (r : ProviderRegistry) (name : String) : Option Provider :=
  r.providers.find? (fun p => p.name = name)

/-- The loop body of `ProviderRegistry.scrapeFromElement`: try each
provider in list order; on the first whose `canHandle` is true AND whose
`scrape` yields data, return provider and data; otherwise keep going. -/
def scrapeLoop (ps : List Provider) (el : Element) : Option (Provider × (String × String)) :=
  match ps with
  | [] => none
  | p :: rest =>
    if p.canHandle el then
      match p.scrape el with
      | some data => some (p, data)
      | none => scrapeLoop rest el
    else
      scrapeLoop rest el

/-- `ProviderRegistry.scrapeFromElement`. -/
def ProviderRegistry.scrapeFromElement (r : ProviderRegistry) (el : Element) :
    Option (Provider × (String × String)) :=
  scrapeLoop r.providers el

/-- The loop body of `ProviderRegistry.resolveValue`: for each provider in
list order, look up its data by name (absent entries skipped), ask its
`getValue`, and return the first truthy value (the empty string is falsy
and is skipped). -/
def resolveLoop (ps : List Provider) (key : String) (pd : ProviderData) : Option String :=
  match ps with
  | [] => none
  | p :: rest =>
    match pdGet pd p.name with
    | some data =>
      match p.getValue key data with
      | some v => if v = "" then resolveLoop rest key pd else some v
      | none => resolveLoop rest key pd
    | none => resolveLoop rest key pd

/-- `ProviderRegistry.resolveValue`. -/
def ProviderRegistry.resolveValue (r : ProviderRegistry) (key : String) (pd : ProviderData) :
    Option String :=
  resolveLoop r.providers key pd

/-- The answer a single provider contributes during `resolveValue`: `none`
when its data entry is absent, when its `getValue` is undefined, or when
the value is the (falsy) empty string. -/
def providerAnswer (key : String) (pd : ProviderData) (p : Provider) : Option String :=
  match pdGet pd p.name with
  | some data =>
    match p.getValue key data with
    | some v => if v = "" then none else some v
    | none => none
  | none => none

/-- A discovered syndication feed record. -/
structure Feed where
  title : Option String
  type : String
  href : String
deriving DecidableEq

/-- The `Metadata` accumulator: the registry it was constructed with,
per-provider multi-valued data, and the independent feed list. -/
structure Metadata where
  registry : ProviderRegistry
  providerData : ProviderData
  feeds : List Feed

/-- The `Metadata` constructor: pre-seeds an empty field map for every
registered provider. -/
def Metadata.init (r : ProviderRegistry) : Metadata :=
  { registry := r,
    providerData := r.providers.map (fun p => (p.name, ([] : FieldMap))),
    feeds := [] }

/-- `Metadata.addData(providerName, key, value)`. -/
def Metadata.addData (m : Metadata) (providerName key value : String) : Metadata :=
  { m with providerData := pdAppend m.providerData providerName key value }

/-- `Metadata.resolveValue(key)`: delegates to the registry. -/
def Metadata.resolveValue (m : Metadata) (key : String) : Option String :=
  ProviderRegistry.resolveValue m.registry key m.providerData

/-- The `favicon` getter:
`resolveValue('icon') || resolveValue('shortcut icon') || '/favicon.ico'`. -/
def Metadata.favicon (m : Metadata) : String :=
  jsOrStr (m.resolveValue "icon") (jsOrStr (m.resolveValue "shortcut icon") "/favicon.ico")

/-- The `title` getter: `resolveValue('title') || resolveValue('firstHeading')`. -/
def Metadata.title (m : Metadata) : Option String :=
  jsOrOpt (m.resolveValue "title") (m.resolveValue "firstHeading")

/-- A JSON value, as produced by `JSON.parse` (numbers as exact
rationals). -/
inductive Json where
  | null
  | bool (b : Bool)
  | num (q : Rat)
  | str (s : String)
  | arr (elems : List Json)
  | obj (fields : List (String × Json))

/-- JSON whitespace. -/
def jsonWs (c : Char) : Bool :=
  c = ' ' || c = '\t' || c = '\n' || c = '\r'

/-- Skip leading JSON whitespace. -/
def skipWs (cs : List Char) : List Char :=
  cs.dropWhile jsonWs

/-- Value of a hexadecimal digit. -/
def hexVal (c : Char) : Option Nat :=
  if '0' ≤ c ∧ c ≤ '9' then some (c.toNat - '0'.toNat)
  else if 'a' ≤ c ∧ c ≤ 'f' then some (c.toNat - 'a'.toNat + 10)
  else if 'A' ≤ c ∧ c ≤ 'F' then some (c.toNat - 'A'.toNat + 10)
  else none

/-- Parse the body of a JSON string literal (the opening quote already
consumed), handling the escape sequences of `JSON.parse`. -/
def parseStringBody : Nat → List Char → List Char → Option (String × List Char)
  | 0, _, _ => none
  | Nat.succ fuel, acc, cs =>
    match cs with
    | [] => none
    | '"' :: rest => some (String.mk acc.reverse, rest)
    | '\\' :: e :: rest =>
      match e with
      | '"' => parseStringBody fuel ('"' :: acc) rest
      | '\\' => parseStringBody fuel ('\\' :: acc) rest
      | '/' => parseStringBody fuel ('/' :: acc) rest
      | 'b' => parseStringBody fuel ('\x08' :: acc) rest
      | 'f' => parseStringBody fuel ('\x0c' :: acc) rest
      | 'n' => parseStringBody fuel ('\n' :: acc) rest
      | 'r' => parseStringBody fuel ('\r' :: acc) rest
      | 't' => parseStringBody fuel ('\t' :: acc) rest
      | 'u' =>
        match rest with
        | h1 :: h2 :: h3 :: h4 :: rest' =>
          match hexVal h1, hexVal h2, hexVal h3, hexVal h4 with
          | some a, some b, some c, some d =>
            parseStringBody fuel (Char.ofNat (((a * 16 + b) * 16 + c) * 16 + d) :: acc) rest'
          | _, _, _, _ => none
        | _ => none
      | _ => none
    | c :: rest =>
      if c = '"' ∨ c = '\\' then none else parseStringBody fuel (c :: acc) rest

/-- Digits to a natural number. -/
def digitsToNat (ds : List Char) : Nat :=
  ds.foldl (fun n c => n * 10 + (c.toNat - '0'.toNat)) 0

/-- Scale a rational mantissa by a signed power of ten. -/
def scaleByPow10 (m : Rat) (e : Int) : Rat :=
  if e ≥ 0 then m * ((10 : Rat) ^ e.toNat) else m / ((10 : Rat) ^ (-e).toNat)

/-- Parse a JSON number literal. -/
def parseNumber (cs : List Char) : Option (Rat × List Char) :=
  let (neg, cs1) := match cs with
    | '-' :: rest => (true, rest)
    | _ => (false, cs)
  let intDigits := cs1.takeWhile Char.isDigit
  let cs2 := cs1.dropWhile Char.isDigit
  if intDigits.isEmpty then none else
  let (fracDigits, cs3) := match cs2 with
    | '.' :: rest =>
      (rest.takeWhile Char.isDigit, rest.dropWhile Char.isDigit)
    | _ => ([], cs2)
  if cs2 ≠ cs3 ∧ fracDigits.isEmpty then none else
  let expParsed : Option (Int × List Char) := match cs3 with
    | 'e' :: rest | 'E' :: rest =>
      let (esign, rest1) := match rest with
        | '+' :: r => ((1 : Int), r)
        | '-' :: r => ((-1 : Int), r)
        | _ => ((1 : Int), rest)
      let expDigits := rest1.takeWhile Char.isDigit
      if expDigits.isEmpty then none
      else some (esign * (digitsToNat expDigits : Int), rest1.dropWhile Char.isDigit)
    | _ => some (0, cs3)
  match expParsed with
  | none => none
  | some (e, cs4) =>
    let mantissa : Int := digitsToNat (intDigits ++ fracDigits)
    let signed : Int := if neg then -mantissa else mantissa
    some (scaleByPow10 (signed : Rat) (e - fracDigits.length), cs4)

/-- Consume an expected literal keyword. -/
def expectLit (lit : List Char) (cs : List Char) : Option (List Char) :=
  if cs.take lit.length = lit then some (cs.drop lit.length) else none

mutual

/-- Parse one JSON value (fuel-based recursive descent modelling
`JSON.parse`). -/
def parseValue : Nat → List Char → Option (Json × List Char)
  | 0, _ => none
  | Nat.succ fuel, cs =>
    let cs := skipWs cs
    match cs with
    | 'n' :: _ => (expectLit ['n', 'u', 'l', 'l'] cs).map (fun r => (Json.null, r))
    | 't' :: _ => (expectLit ['t', 'r', 'u', 'e'] cs).map (fun r => (Json.bool true, r))
    | 'f' :: _ => (expectLit ['f', 'a', 'l', 's', 'e'] cs).map (fun r => (Json.bool false, r))
    | '"' :: rest =>
      (parseStringBody (rest.length + 1) [] rest).map (fun sr => (Json.str sr.1, sr.2))
    | '{' :: rest =>
      let rest' := skipWs rest
      match rest' with
      | '}' :: r => some (Json.obj [], r)
      | _ => (parseMembers fuel rest').map (fun fr => (Json.obj fr.1, fr.2))
    | '[' :: rest =>
      let rest' := skipWs rest
      match rest' with
      | ']' :: r => some (Json.arr [], r)
      | _ => (parseElems fuel rest').map (fun er => (Json.arr er.1, er.2))
    | _ => (parseNumber cs).map (fun nr => (Json.num nr.1, nr.2))

/-- Parse the members of a JSON object, after `{` and leading whitespace,
knowing the object is non-empty. -/
def parseMembers : Nat → List Char → Option (List (String × Json) × List Char)
  | 0, _ => none
  | Nat.succ fuel, cs =>
    match cs with
    | '"' :: rest =>
      match parseStringBody (rest.length + 1) [] rest with
      | none => none
      | some (key, rest1) =>
        match skipWs rest1 with
        | ':' :: rest2 =>
          match parseValue fuel rest2 with
          | none => none
          | some (v, rest3) =>
            match skipWs rest3 with
            | ',' :: rest4 =>
              (parseMembers fuel (skipWs rest4)).map
                (fun fr => ((key, v) :: fr.1, fr.2))
            | '}' :: rest4 => some ([(key, v)], rest4)
            | _ => none
        | _ => none
    | _ => none

/-- Parse the elements of a JSON array, after `[` and leading whitespace,
knowing the array is non-empty. -/
def parseElems : Nat → List Char → Option (List Json × List Char)
  | 0, _ => none
  | Nat.succ fuel, cs =>
    match parseValue fuel cs with
    | none => none
    | some (v, rest) =>
      match skipWs rest with
      | ',' :: rest1 => (parseElems fuel (skipWs rest1)).map (fun er => (v :: er.1, er.2))
      | ']' :: rest1 => some ([v], rest1)
      | _ => none

end

/-- Model of `JSON.parse`: parses one value and requires only whitespace
to remain; `none` models the thrown `SyntaxError`. -/
def parseJson (s : String) : Option Json :=
  match parseValue (s.length + 1) s.toList with
  | some (j, rest) => if (skipWs rest).isEmpty then some j else none
  | none => none

/-- JavaScript property access `j[k]` on a parsed JSON value: a field of
an object (for duplicate keys the last wins, as in `JSON.parse`),
`undefined` on non-objects. -/
def jGet (j : Json) (k : String) : Option Json :=
  match j with
  | Json.obj fields => (fields.reverse.find? (fun f => f.1 = k)).map (fun f => f.2)
  | _ => none

/-- JavaScript truthiness of a parsed JSON value. -/
def jTruthy : Json → Bool
  | Json.null => false
  | Json.bool b => b
  | Json.num q => if q = 0 then false else true
  | Json.str s => if s = "" then false else true
  | Json.arr _ => true
  | Json.obj _ => true

/-- JavaScript truthiness of a possibly-undefined JSON value. -/
def jTruthyOpt : Option Json → Bool
  | some v => jTruthy v
  | none => false

/-- The string stored for a truthy JSON field (the source declares these
fields as strings; non-string JSON values are represented by a canonical
rendering). -/
def jValueStr : Json → String
  | Json.str s => s
  | Json.null => "null"
  | Json.bool b => if b then "true" else "false"
  | Json.num q => toString q
  | Json.arr _ => "[array]"
  | Json.obj _ => "[object]"

/-- `JsonLdProvider.canHandle`: a `script` element whose `type` attribute
equals `application/ld+json`. -/
def jsonLdCanHandle (el : Element) : Bool :=
  lowerTag el.tagName = "script" && el.getAttribute "type" = some "application/ld+json"

/-- `JsonLdProvider.scrape`: parse the text content as JSON (parse
failures are caught and yield `null`); for `@type` of `Article` or
`WebPage`, emit the first truthy field among `headline` (as `title`),
`description`, and `image.url` (as `image`). -/
def jsonLdScrape (el : Element) : Option (String × String) :=
  match el.textContent with
  | none => none
  | some content =>
    if content = "" then none
    else
      match parseJson content with
      | none => none
      | some j =>
        match jGet j "@type" with
        | some (Json.str t) =>
          if t = "Article" ∨ t = "WebPage" then
            if jTruthyOpt (jGet j "headline") then
              some ("title", jValueStr ((jGet j "headline").getD Json.null))
            else if jTruthyOpt (jGet j "description") then
              some ("description", jValueStr ((jGet j "description").getD Json.null))
            else if jTruthyOpt (jGet j "image") &&
                jTruthyOpt ((jGet j "image").bind (fun im => jGet im "url")) then
              some ("image", jValueStr (((jGet j "image").bind (fun im => jGet im "url")).getD Json.null))
            else none
          else none
        | _ => none

/-- The `JsonLdProvider` instance (name `jsonLd`, priority 0.5). -/
def jsonLdProvider : Provider :=
  { name := "jsonLd", priority := (1 : Rat) / 2, canHandle := jsonLdCanHandle,
    scrape := jsonLdScrape, getValue := getValueDefault }

/-- The input to `Scraper.scrape`: either a genuine queryable document, or
a value that is not a queryable document-like object (`null`, `undefined`,
or an object without `querySelectorAll`). -/
inductive ScrapeInput where
  | doc (d : Document)
  | notQueryable

/-- The private `Scraper.scrapeFromElement`: dispatch one node through the
registry and accumulate the extraction, if any. -/
def Scraper.scrapeFromElement (reg : ProviderRegistry) (m : Metadata) (el : Element) : Metadata :=
  match ProviderRegistry.scrapeFromElement reg el with
  | some (p, data) => m.addData p.name data.1 data.2
  | none => m

/-- Phase 1, `scrapeMetaTags`: dispatch every `meta` element. -/
def Scraper.scrapeMetaTags (reg : ProviderRegistry) (d : Document) (m : Metadata) : Metadata :=
  (querySelectorAllTag d "meta").foldl (Scraper.scrapeFromElement reg) m

/-- Phase 2, `scrapeTitleTag`: dispatch the first `title` element if
present. -/
def Scraper.scrapeTitleTag (reg : ProviderRegistry) (d : Document) (m : Metadata) : Metadata :=
  match querySelectorTag d "title" with
  | some el => Scraper.scrapeFromElement reg m el
  | none => m

/-- Phase 3, `scrapeHeadingTags`: dispatch the first `h1` element if
present. -/
def Scraper.scrapeHeadingTags (reg : ProviderRegistry) (d : Document) (m : Metadata) : Metadata :=
  match querySelectorTag d "h1" with
  | some el => Scraper.scrapeFromElement reg m el
  | none => m

/-- Phase 4, `scrapeLinkTags`: dispatch every `link` element carrying a
`rel` attribute. -/
def Scraper.scrapeLinkTags (reg : ProviderRegistry) (d : Document) (m : Metadata) : Metadata :=
  (querySelectorLinkRel d).foldl (Scraper.scrapeFromElement reg) m

/-- Phase 5, `scrapeFeedLinks`: for every `link` with `rel` equal to
`alternate`, record a feed with `title || undefined`, `type || ''`, and
the `href` attribute when truthy; no provider dispatch. -/
def Scraper.scrapeFeedLinks (d : Document) (m : Metadata) : Metadata :=
  (querySelectorLinkAlternate d).foldl
    (fun acc tag =>
      let title := truthyOpt (tag.getAttribute "title")
      let ftype := jsOrStr (tag.getAttribute "type") ""
      match tag.getAttribute "href" with
      | some href =>
        if href ≠ "" then { acc with feeds := acc.feeds ++ [⟨title, ftype, href⟩] } else acc
      | none => acc)
    m

/-- The five fixed phases over one queryable document. -/
def Scraper.scrapeDoc (reg : ProviderRegistry) (d : Document) : Metadata :=
  Scraper.scrapeFeedLinks d
    (Scraper.scrapeLinkTags reg d
      (Scraper.scrapeHeadingTags reg d
        (Scraper.scrapeTitleTag reg d
          (Scraper.scrapeMetaTags reg d (Metadata.init reg)))))

/-- `Scraper.scrape`: throws `TypeError("DOM Document expected.")` when
the input is not a queryable document, otherwise runs the five phases and
returns the accumulated metadata. -/
def Scraper.scrape (reg : ProviderRegistry) : ScrapeInput → Except String Metadata
  | ScrapeInput.notQueryable => Except.error "DOM Document expected."
  | ScrapeInput.doc d => Except.ok (Scraper.scrapeDoc reg d)

/-- The default provider list as assembled by `ProviderLoader.loadDefaults`:
OpenGraph, Twitter, StandardMeta, OtherElements, in that registration
order. -/
def defaultProviders : List Provider :=
  [openGraphProvider, twitterProvider, standardMetaProvider, otherElementsProvider]

/-!
Helper lemmas shared by the claim theorems.
-/

/-- Stability of the registry's sort, in filter form: filtering by any
predicate whose satisfying elements are pairwise related is unchanged by
the stable insertion sort. -/
lemma filter_insertionSort_of_rel (p : Provider → Bool) (l : List Provider)
    (hp : ∀ a b, p a = true → p b = true → priRel a b) :
    (l.insertionSort priRel).filter p = l.filter p := by
  have hc : List.Sublist (l.filter p) l := List.filter_sublist l
  have hcr : (l.filter p).Pairwise priRel := by
    apply List.pairwise_of_forall_mem_list
    intro a ha b hb
    exact hp a b (List.of_mem_filter ha) (List.of_mem_filter hb)
  have h1 : List.Sublist (l.filter p) (List.insertionSort priRel l) :=
    List.sublist_insertionSort hcr hc
  have h2 : (l.filter p).filter p = l.filter p := by
    rw [List.filter_eq_self]
    intro a ha
    exact List.of_mem_filter ha
  have h3 : List.Sublist (l.filter p) ((List.insertionSort priRel l).filter p) := by
    have := h1.filter p
    rwa [h2] at this
  have h4 : ((List.insertionSort priRel l).filter p).length = (l.filter p).length :=
    ((List.perm_insertionSort priRel l).filter p).length_eq
  exact (h3.eq_of_length h4.symm).symm

/-- Registration keeps the provider sequence sorted by ascending
priority. -/
lemma foldl_register_sorted (ps : List Provider) (r : ProviderRegistry)
    (hr : r.providers.Pairwise priRel) :
    ((ps.foldl ProviderRegistry.registerProvider r).providers).Pairwise priRel := by
  induction ps generalizing r with
  | nil => simpa using hr
  | cons p rest ih =>
    have hsorted : ((r.registerProvider p).providers).Pairwise priRel :=
      List.sorted_insertionSort priRel (r.providers ++ [p])
    simpa [List.foldl_cons] using ih (r.registerProvider p) hsorted

/-- The providers of a freshly built registry are sorted by ascending
priority. -/
lemma mkRegistry_sorted (ps : List Provider) :
    ((mkRegistry ps).providers).Pairwise priRel :=
  foldl_register_sorted ps ⟨[]⟩ List.Pairwise.nil

/-- Filter-stability of registration: registering a sequence of providers
appends, at every priority value, exactly the providers of that priority
in registration order. -/
lemma foldl_register_filter (v : Rat) (ps : List Provider) (r : ProviderRegistry) :
    ((ps.foldl ProviderRegistry.registerProvider r).providers).filter (fun p => p.priority = v)
      = r.providers.filter (fun p => p.priority = v) ++ ps.filter (fun p => p.priority = v) := by
  induction ps generalizing r with
  | nil => simp
  | cons p rest ih =>
    have hstep : ((r.registerProvider p).providers).filter (fun q => q.priority = v)
        = r.providers.filter (fun q => q.priority = v) ++ [p].filter (fun q => q.priority = v) := by
      have hrel : ∀ a b : Provider,
          (decide (a.priority = v)) = true → (decide (b.priority = v)) = true → priRel a b := by
        intro a b ha hb
        have ha' := of_decide_eq_true ha
        have hb' := of_decide_eq_true hb
        unfold priRel
        rw [ha', hb']
      calc ((r.registerProvider p).providers).filter (fun q => q.priority = v)
          = ((r.providers ++ [p]).insertionSort priRel).filter (fun q => q.priority = v) := rfl
        _ = (r.providers ++ [p]).filter (fun q => q.priority = v) :=
            filter_insertionSort_of_rel _ _ hrel
        _ = r.providers.filter (fun q => q.priority = v) ++ [p].filter (fun q => q.priority = v) :=
            List.filter_append _ _
    calc (((p :: rest).foldl ProviderRegistry.registerProvider r).providers).filter
            (fun q => q.priority = v)
        = ((rest.foldl ProviderRegistry.registerProvider (r.registerProvider p)).providers).filter
            (fun q => q.priority = v) := rfl
      _ = ((r.registerProvider p).providers).filter (fun q => q.priority = v)
            ++ rest.filter (fun q => q.priority = v) := ih (r.registerProvider p)
      _ = (r.providers.filter (fun q => q.priority = v) ++ [p].filter (fun q => q.priority = v))
            ++ rest.filter (fun q => q.priority = v) := by rw [hstep]
      _ = r.providers.filter (fun q => q.priority = v)
            ++ (p :: rest).filter (fun q => q.priority = v) := by
            rw [List.append_assoc]
            congr 1
            by_cases hp : p.priority = v <;> simp [List.filter_cons, hp]

/-- `scrapeLoop` is the first-success search over the provider list. -/
lemma scrapeLoop_eq_findSome? (ps : List Provider) (el : Element) :
    scrapeLoop ps el
      = ps.findSome? (fun p =>
          if p.canHandle el then (p.scrape el).map (fun d => (p, d)) else none) := by
  induction ps with
  | nil => rfl
  | cons p rest ih =>
    by_cases h : p.canHandle el
    · cases hs : p.scrape el <;>
        simp [scrapeLoop, List.findSome?, h, hs, ih]
    · simp [scrapeLoop, List.findSome?, h, ih]

/-- `resolveLoop` is the first-answer search over the provider list. -/
lemma resolveLoop_eq_findSome? (ps : List Provider) (key : String) (pd : ProviderData) :
    resolveLoop ps key pd = ps.findSome? (providerAnswer key pd) := by
  induction ps with
  | nil => rfl
  | cons p rest ih =>
    cases hd : pdGet pd p.name with
    | none => simp [resolveLoop, List.findSome?, providerAnswer, hd, ih]
    | some data =>
      cases hv : p.getValue key data with
      | none => simp [resolveLoop, List.findSome?, providerAnswer, hd, hv, ih]
      | some v =>
        by_cases hempty : v = "" <;>
          simp [resolveLoop, List.findSome?, providerAnswer, hd, hv, hempty, ih]

/-- A successful `findSome?` splits the list at the first success. -/
lemma findSome?_eq_some_split {α β : Type} (f : α → Option β) (l : List α) (b : β)
    (h : l.findSome? f = some b) :
    ∃ l1 a l2, l = l1 ++ a :: l2 ∧ f a = some b ∧ ∀ x ∈ l1, f x = none := by
  induction l with
  | nil => simp [List.findSome?] at h
  | cons a rest ih =>
    cases ha : f a with
    | some b' =>
      refine ⟨[], a, rest, by simp, ?_, by simp⟩
      simp [List.findSome?, ha] at h
      rw [ha, h]
    | none =>
      have h' : rest.findSome? f = some b := by simpa [List.findSome?, ha] using h
      obtain ⟨l1, x, l2, hsplit, hfx, hnone⟩ := ih h'
      refine ⟨a :: l1, x, l2, by simp [hsplit], hfx, ?_⟩
      intro y hy
      rcases List.mem_cons.mp hy with rfl | hy'
      · exact ha
      · exact hnone y hy'

/-- A failing `findSome?` means every element answers `none`. -/
lemma findSome?_eq_none_iff {α β : Type} (f : α → Option β) (l : List α) :
    l.findSome? f = none ↔ ∀ x ∈ l, f x = none := by
  induction l with
  | nil => simp [List.findSome?]
  | cons a rest ih =>
    cases ha : f a with
    | some b => simp [List.findSome?, ha]
    | none => simp [List.findSome?, ha, ih]

/-- A single provider's answer during resolution is never the empty
string. -/
lemma providerAnswer_ne_empty (key : String) (pd : ProviderData) (p : Provider)
    (v : String) (h : providerAnswer key pd p = some v) : v ≠ "" := by
  unfold providerAnswer at h
  split at h
  · split at h
    · split at h
      · cases h
      · cases h
        assumption
    · cases h
  · cases h

/-- `resolveLoop` never returns the empty string (it is falsy and gets
skipped). -/
lemma resolveLoop_ne_empty (ps : List Provider) (key : String) (pd : ProviderData)
    (v : String) (h : resolveLoop ps key pd = some v) : v ≠ "" := by
  rw [resolveLoop_eq_findSome?] at h
  obtain ⟨l1, p, l2, hsplit, hfp, hnone⟩ := findSome?_eq_some_split _ _ _ h
  exact providerAnswer_ne_empty key pd p v hfp

/-- The amended feed-extraction rule, stated from the specification's
wording: a record is produced exactly when `href` is present and
non-empty; its title is the `title` attribute when present and non-empty
(absent otherwise), its type is the `type` attribute or the empty string
when absent. -/
def feedRecordSpec (el : Element) : Option Feed :=
  match el.getAttribute "href" with
  | some href =>
    if href = "" then none
    else
      some { title := match el.getAttribute "title" with
                      | some t => if t = "" then none else some t
                      | none => none,
             type := match el.getAttribute "type" with
                     | some ty => ty
                     | none => "",
             href := href }
  | none => none

/-- The feed-collection fold produces exactly the records of
`feedRecordSpec`, appended in document order. -/
lemma feedFold_feeds (tags : List Element) (m : Metadata) :
    (tags.foldl
      (fun acc tag =>
        let title := truthyOpt (tag.getAttribute "title")
        let ftype := jsOrStr (tag.getAttribute "type") ""
        match tag.getAttribute "href" with
        | some href =>
          if href ≠ "" then { acc with feeds := acc.feeds ++ [⟨title, ftype, href⟩] } else acc
        | none => acc)
      m).feeds = m.feeds ++ tags.filterMap feedRecordSpec := by
  induction tags generalizing m with
  | nil => simp
  | cons t ts ih =>
    rw [List.foldl_cons, ih]
    cases hh : t.getAttribute "href" with
    | none =>
      simp only [List.filterMap_cons, feedRecordSpec, hh]
    | some href =>
      by_cases hempty : href = ""
      · simp only [List.filterMap_cons, feedRecordSpec, hh, hempty]
        simp
      · have hfr : feedRecordSpec t
            = some ⟨truthyOpt (t.getAttribute "title"), jsOrStr (t.getAttribute "type") "", href⟩ := by
          simp only [feedRecordSpec, hh, if_neg hempty]
          cases ht : t.getAttribute "title" <;>
            cases hty : t.getAttribute "type" <;>
            simp [truthyOpt, jsOrStr] <;>
            split_ifs with hval <;> simp [hval]
        simp only [List.filterMap_cons, hfr, hh, hempty]
        simp [if_neg hempty, List.append_assoc]

/-- Registry dispatch of one node never touches the feed list. -/
lemma scrapeFromElement_feeds (reg : ProviderRegistry) (m : Metadata) (el : Element) :
    (Scraper.scrapeFromElement reg m el).feeds = m.feeds := by
  unfold Scraper.scrapeFromElement
  cases h : ProviderRegistry.scrapeFromElement reg el with
  | none => rfl
  | some pr => rfl

/-- Folded dispatch over any node list never touches the feed list. -/
lemma foldl_scrapeFromElement_feeds (reg : ProviderRegistry) (els : List Element)
    (m : Metadata) :
    ((els.foldl (Scraper.scrapeFromElement reg) m)).feeds = m.feeds := by
  induction els generalizing m with
  | nil => rfl
  | cons e es ih =>
    rw [List.foldl_cons, ih, scrapeFromElement_feeds]

/-- Phases 1 through 4 never touch the feed list. -/
lemma phases_feeds (reg : ProviderRegistry) (d : Document) (m : Metadata) :
    (Scraper.scrapeLinkTags reg d
      (Scraper.scrapeHeadingTags reg d
        (Scraper.scrapeTitleTag reg d
          (Scraper.scrapeMetaTags reg d m)))).feeds = m.feeds := by
  unfold Scraper.scrapeLinkTags Scraper.scrapeHeadingTags Scraper.scrapeTitleTag
    Scraper.scrapeMetaTags
  rw [foldl_scrapeFromElement_feeds]
  cases h1 : querySelectorTag d "h1" <;> cases ht : querySelectorTag d "title" <;>
    simp [scrapeFromElement_feeds, foldl_scrapeFromElement_feeds]

/-- The feed list of a full scrape is exactly the records of the amended
feed rule over the `rel="alternate"` links, independent of the registry. -/
lemma scrapeDoc_feeds (reg : ProviderRegistry) (d : Document) :
    (Scraper.scrapeDoc reg d).feeds
      = (querySelectorLinkAlternate d).filterMap feedRecordSpec := by
  unfold Scraper.scrapeDoc Scraper.scrapeFeedLinks
  rw [feedFold_feeds, phases_feeds]
  simp [Metadata.init]

/-- C3: for every sequence of `registerProvider` calls, `getProviders`
returns the providers sorted ascending by numeric priority, and at every
priority value the providers appear in their registration order
(stability).  Quantifying over all registration sequences covers the state
after every registration. -/
theorem claim_registry_sorted_stable (ps : List Provider) :
    ((mkRegistry ps).getProviders).Pairwise (fun a b => a.priority ≤ b.priority)
    ∧ ∀ v : Rat, ((mkRegistry ps).getProviders).filter (fun p => p.priority = v)
        = ps.filter (fun p => p.priority = v) := by
  constructor
  · exact mkRegistry_sorted ps
  · intro v
    have h := foldl_register_filter v ps ⟨[]⟩
    simpa [mkRegistry, ProviderRegistry.getProviders] using h

/-- C1: dispatch returns the result of the first provider, in the
registry's ascending-priority order, that both recognizes the node and
successfully extracts from it; a provider that recognizes but extracts
nothing is simply skipped (fallthrough), and if no provider extracts
anything the result is `none`. -/
theorem claim_dispatch_first_success (ps : List Provider) (el : Element) :
    (ProviderRegistry.scrapeFromElement (mkRegistry ps) el
        = ((mkRegistry ps).providers).findSome? (fun p =>
            if p.canHandle el then (p.scrape el).map (fun d => (p, d)) else none))
    ∧ ((mkRegistry ps).providers).Pairwise (fun a b => a.priority ≤ b.priority)
    ∧ (∀ (p : Provider) (rest : List Provider), p.canHandle el = true → p.scrape el = none →
        scrapeLoop (p :: rest) el = scrapeLoop rest el)
    ∧ (ProviderRegistry.scrapeFromElement (mkRegistry ps) el = none ↔
        ∀ p ∈ (mkRegistry ps).providers, p.canHandle el = true → p.scrape el = none) := by
  refine ⟨scrapeLoop_eq_findSome? _ el, mkRegistry_sorted ps, ?_, ?_⟩
  · intro p rest hch hsc
    simp [scrapeLoop, hch, hsc]
  · rw [ProviderRegistry.scrapeFromElement, scrapeLoop_eq_findSome?, findSome?_eq_none_iff]
    constructor
    · intro h p hp hch
      have hpn := h p hp
      rw [if_pos hch] at hpn
      exact Option.map_eq_none.mp hpn
    · intro h p hp
      by_cases hch : p.canHandle el
      · rw [if_pos hch, h p hp hch]
        rfl
      · rw [if_neg (by simpa using hch)]

/-- C2: field resolution iterates providers in the registry's
ascending-priority order, skipping providers whose data entry is absent,
and returns the first defined, non-empty answer; when a value is returned
it comes from a provider such that every strictly-lower-priority provider
answered nothing, and `none` is returned exactly when no provider has an
answer. -/
theorem claim_resolve_lowest_priority (ps : List Provider) (key : String) (pd : ProviderData) :
    (ProviderRegistry.resolveValue (mkRegistry ps) key pd
        = ((mkRegistry ps).providers).findSome? (providerAnswer key pd))
    ∧ (∀ v, ProviderRegistry.resolveValue (mkRegistry ps) key pd = some v →
        ∃ p ∈ (mkRegistry ps).providers, providerAnswer key pd p = some v
          ∧ ∀ q ∈ (mkRegistry ps).providers, q.priority < p.priority →
              providerAnswer key pd q = none)
    ∧ (ProviderRegistry.resolveValue (mkRegistry ps) key pd = none ↔
        ∀ p ∈ (mkRegistry ps).providers, providerAnswer key pd p = none)
    ∧ (∀ (p : Provider) (rest : List Provider), pdGet pd p.name = none →
        resolveLoop (p :: rest) key pd = resolveLoop rest key pd) := by
  refine ⟨resolveLoop_eq_findSome? _ key pd, ?_, ?_, ?_⟩
  · intro v hv
    rw [ProviderRegistry.resolveValue, resolveLoop_eq_findSome?] at hv
    obtain ⟨l1, p, l2, hsplit, hfp, hnone⟩ := findSome?_eq_some_split _ _ _ hv
    refine ⟨p, by simp [hsplit], hfp, ?_⟩
    intro q hq hlt
    rw [hsplit] at hq
    rcases List.mem_append.mp hq with hq1 | hq2
    · exact hnone q hq1
    · exfalso
      have hsorted := mkRegistry_sorted ps
      rw [hsplit] at hsorted
      have hpq : priRel p q := by
        rcases List.mem_cons.mp hq2 with rfl | hq3
        · exact le_refl _
        · have hp2 := (List.pairwise_append.mp hsorted).2.1
          exact (List.pairwise_cons.mp hp2).1 q hq3
      exact absurd hpq (not_le.mpr hlt)
  · rw [ProviderRegistry.resolveValue, resolveLoop_eq_findSome?]
    exact findSome?_eq_none_iff _ _
  · intro p rest h
    simp [resolveLoop, h]

/-- C5 counterexample: the claim states `canHandle` returns true exactly
for `meta` elements with a non-empty `content` and `name` or `property`
present; but the source never inspects the tag name, so a `div` with
`name` and `content` attributes is recognized, and a `meta` whose `name`
attribute is present but empty (with no `property`) is rejected. -/
theorem claim_standardMeta_recognition_counterexample :
    (standardMetaProvider.canHandle ⟨"div", [("name", "author"), ("content", "x")], none⟩ = true
      ∧ lowerTag "div" ≠ "meta")
    ∧ (standardMetaProvider.canHandle ⟨"meta", [("name", ""), ("content", "x")], none⟩ = false
      ∧ Element.getAttribute ⟨"meta", [("name", ""), ("content", "x")], none⟩ "name" = some ""
      ∧ Element.getAttribute ⟨"meta", [("name", ""), ("content", "x")], none⟩ "content" = some "x") := by
  decide

/-- C5 (amended): `StandardMetaProvider.canHandle` returns true exactly
for elements, of any tag name, that have a present non-empty `content`
attribute and at least one of `name` or `property` present and non-empty,
where neither `name` nor `property` (when present) starts with `og:` or
`twitter:`. -/
theorem claim_standardMeta_recognition (el : Element) :
    standardMetaProvider.canHandle el = true ↔
      ((∃ c, el.getAttribute "content" = some c ∧ c ≠ "")
       ∧ ((∃ n, el.getAttribute "name" = some n ∧ n ≠ "")
          ∨ (∃ pv, el.getAttribute "property" = some pv ∧ pv ≠ ""))
       ∧ (∀ n, el.getAttribute "name" = some n →
            strStartsWith n "og:" = false ∧ strStartsWith n "twitter:" = false)
       ∧ (∀ pv, el.getAttribute "property" = some pv →
            strStartsWith pv "og:" = false ∧ strStartsWith pv "twitter:" = false)) := by
  show standardMetaCanHandle el = true ↔ _
  unfold standardMetaCanHandle
  cases hc : el.getAttribute "content" <;>
    cases hn : el.getAttribute "name" <;>
    cases hp : el.getAttribute "property" <;>
    simp [strTruthy, optStartsWith, hc, hn, hp] <;>
    tauto

/-- C5 (amended) witness: the characterization instantiated at a concrete
recognized element. -/
theorem claim_standardMeta_recognition_witness :
    (∃ c, Element.getAttribute ⟨"meta", [("name", "description"), ("content", "d")], none⟩ "content"
        = some c ∧ c ≠ "")
    ∧ ((∃ n, Element.getAttribute ⟨"meta", [("name", "description"), ("content", "d")], none⟩ "name"
          = some n ∧ n ≠ "")
       ∨ (∃ pv, Element.getAttribute ⟨"meta", [("name", "description"), ("content", "d")], none⟩ "property"
          = some pv ∧ pv ≠ ""))
    ∧ (∀ n, Element.getAttribute ⟨"meta", [("name", "description"), ("content", "d")], none⟩ "name"
          = some n →
        strStartsWith n "og:" = false ∧ strStartsWith n "twitter:" = false)
    ∧ (∀ pv, Element.getAttribute ⟨"meta", [("name", "description"), ("content", "d")], none⟩ "property"
          = some pv →
        strStartsWith pv "og:" = false ∧ strStartsWith pv "twitter:" = false) :=
  (claim_standardMeta_recognition ⟨"meta", [("name", "description"), ("content", "d")], none⟩).mp
    (by decide)

/-- C6: for `OtherElementsProvider`, a `title` (or `h1`) element whose
text content is non-empty but whitespace-only extracts a pair with the
empty string as value (not a miss), while a `title`/`h1` element whose
text content is absent or the empty string yields `none`. -/
theorem claim_other_whitespace_text (el : Element) (s : String) :
    (lowerTag el.tagName = "title" → el.textContent = some s → s ≠ "" → jsTrim s = "" →
      otherElementsProvider.scrape el = some ("title", ""))
    ∧ (lowerTag el.tagName = "h1" → el.textContent = some s → s ≠ "" → jsTrim s = "" →
      otherElementsProvider.scrape el = some ("firstHeading", ""))
    ∧ ((lowerTag el.tagName = "title" ∨ lowerTag el.tagName = "h1") →
      (el.textContent = none ∨ el.textContent = some "") →
      otherElementsProvider.scrape el = none) := by
  refine ⟨?_, ?_, ?_⟩
  · intro htag htc hs htrim
    show otherScrape el = _
    unfold otherScrape
    simp [htag, htc, strTruthy, hs, htrim]
  · intro htag htc hs htrim
    show otherScrape el = _
    unfold otherScrape
    simp [htag, htc, strTruthy, hs, htrim]
  · intro htag htc
    show otherScrape el = none
    unfold otherScrape
    rcases htag with htag | htag <;>
      rcases htc with htc | htc <;>
      simp [htag, htc, strTruthy]

/-- C6 witness: concrete whitespace-only and absent-text elements. -/
theorem claim_other_whitespace_text_witness :
    otherElementsProvider.scrape ⟨"title", [], some "  "⟩ = some ("title", "")
    ∧ otherElementsProvider.scrape ⟨"h1", [], some " "⟩ = some ("firstHeading", "")
    ∧ otherElementsProvider.scrape ⟨"title", [], none⟩ = none
    ∧ otherElementsProvider.scrape ⟨"h1", [], some ""⟩ = none :=
  ⟨(claim_other_whitespace_text ⟨"title", [], some "  "⟩ "  ").1 (by decide) rfl (by decide) (by decide),
   (claim_other_whitespace_text ⟨"h1", [], some " "⟩ " ").2.1 (by decide) rfl (by decide) (by decide),
   (claim_other_whitespace_text ⟨"title", [], none⟩ "x").2.2 (Or.inl (by decide)) (Or.inl rfl),
   (claim_other_whitespace_text ⟨"h1", [], some ""⟩ "x").2.2 (Or.inr (by decide)) (Or.inr rfl)⟩

/-- C10: when a non-empty `property` attribute does not carry the
provider's prefix but the `name` attribute does (so recognition fires from
`name`), the emitted key strips the prefix length from the `property`
value: the first 8 characters for Twitter, the first 3 for OpenGraph. -/
theorem claim_strip_uses_property (el el2 : Element) (pv nm c pv2 nm2 c2 : String) :
    (el.getAttribute "property" = some pv → pv ≠ "" → strStartsWith pv "twitter:" = false →
      el.getAttribute "name" = some nm → strStartsWith nm "twitter:" = true →
      el.getAttribute "content" = some c → c ≠ "" →
      twitterProvider.scrape el = some (strDrop pv 8, c))
    ∧ (el2.getAttribute "property" = some pv2 → pv2 ≠ "" → strStartsWith pv2 "og:" = false →
      el2.getAttribute "name" = some nm2 → strStartsWith nm2 "og:" = true →
      el2.getAttribute "content" = some c2 → c2 ≠ "" →
      openGraphProvider.scrape el2 = some (strDrop pv2 3, c2)) := by
  constructor
  · intro hp hpne hps hn hns hc hcne
    show twitterScrape el = _
    unfold twitterScrape twitterCanHandle
    simp [hp, hn, hc, jsOrOpt, strTruthy, optStartsWith, hpne, hcne, hps, hns]
  · intro hp hpne hps hn hns hc hcne
    show openGraphScrape el2 = _
    unfold openGraphScrape openGraphCanHandle
    simp [hp, hn, hc, jsOrOpt, strTruthy, optStartsWith, hpne, hcne, hps, hns]

/-- C10 witness: concrete meta elements exercising both providers. -/
theorem claim_strip_uses_property_witness :
    twitterProvider.scrape ⟨"meta", [("property", "foo:bar"), ("name", "twitter:card"), ("content", "c")], none⟩
      = some (strDrop "foo:bar" 8, "c")
    ∧ openGraphProvider.scrape ⟨"meta", [("property", "x:y"), ("name", "og:title"), ("content", "t")], none⟩
      = some (strDrop "x:y" 3, "t") :=
  ⟨(claim_strip_uses_property
      ⟨"meta", [("property", "foo:bar"), ("name", "twitter:card"), ("content", "c")], none⟩
      ⟨"meta", [("property", "x:y"), ("name", "og:title"), ("content", "t")], none⟩
      "foo:bar" "twitter:card" "c" "x:y" "og:title" "t").1
      (by decide) (by decide) (by decide) (by decide) (by decide) (by decide) (by decide),
   (claim_strip_uses_property
      ⟨"meta", [("property", "foo:bar"), ("name", "twitter:card"), ("content", "c")], none⟩
      ⟨"meta", [("property", "x:y"), ("name", "og:title"), ("content", "t")], none⟩
      "foo:bar" "twitter:card" "c" "x:y" "og:title" "t").2
      (by decide) (by decide) (by decide) (by decide) (by decide) (by decide) (by decide)⟩

/-- When no provider's accumulated data contains a field (and all
providers use the shared default resolver), resolution yields `none`. -/
lemma resolveValue_eq_none_of_no_field (r : ProviderRegistry) (key : String) (pd : ProviderData)
    (hg : ∀ p ∈ r.providers, p.getValue = getValueDefault)
    (hdata : ∀ e ∈ pd, fmGet e.2 key = none) :
    ProviderRegistry.resolveValue r key pd = none := by
  rw [ProviderRegistry.resolveValue, resolveLoop_eq_findSome?, findSome?_eq_none_iff]
  intro p hp
  cases hd : pdGet pd p.name with
  | none => simp [providerAnswer, hd]
  | some data =>
    have hfm : fmGet data key = none := by
      unfold pdGet at hd
      cases hfind : pd.find? (fun kv => kv.1 = p.name) with
      | none => rw [hfind] at hd; simp at hd
      | some e =>
        rw [hfind] at hd
        simp at hd
        rw [← hd]
        exact hdata e (List.mem_of_find?_eq_some hfind)
    simp [providerAnswer, hd, hg p hp, getValueDefault, hfm]

/-- Mock provider that recognizes every node but never extracts. -/
def mockNoExtract : Provider :=
  { name := "mockA", priority := 1, canHandle := fun _ => true,
    scrape := fun _ => none, getValue := getValueDefault }

/-- Mock provider that recognizes every node and always extracts. -/
def mockExtract : Provider :=
  { name := "mockB", priority := 2, canHandle := fun _ => true,
    scrape := fun _ => some ("k", "v"), getValue := getValueDefault }

/-- Example accumulated data: OpenGraph has no `title`, Twitter has `T1`,
StandardMeta has `T2`. -/
def pdExample : ProviderData :=
  [("openGraph", []), ("twitter", [("title", ["T1"])]), ("meta", [("title", ["T2"])])]

/-- C1 witness: a higher-priority provider that recognizes but fails to
extract is skipped, and dispatch returns the lower-priority success. -/
theorem claim_dispatch_first_success_witness :
    scrapeLoop [mockNoExtract, mockExtract] ⟨"meta", [], none⟩
      = scrapeLoop [mockExtract] ⟨"meta", [], none⟩
    ∧ ProviderRegistry.scrapeFromElement (mkRegistry [mockNoExtract, mockExtract]) ⟨"meta", [], none⟩
      = some (mockExtract, ("k", "v")) :=
  ⟨(claim_dispatch_first_success [mockNoExtract, mockExtract] ⟨"meta", [], none⟩).2.2.1
      mockNoExtract [mockExtract] rfl rfl,
   by
     have h := (claim_dispatch_first_success [mockNoExtract, mockExtract] ⟨"meta", [], none⟩).1
     rw [h]
     rfl⟩

/-- C2 witness: with OpenGraph lacking `title`, Twitter's `T1` beats
StandardMeta's `T2`, and an absent provider entry is skipped. -/
theorem claim_resolve_lowest_priority_witness :
    (∃ p ∈ (mkRegistry defaultProviders).providers,
        providerAnswer "title" pdExample p = some "T1"
        ∧ ∀ q ∈ (mkRegistry defaultProviders).providers, q.priority < p.priority →
            providerAnswer "title" pdExample q = none)
    ∧ resolveLoop (openGraphProvider :: [twitterProvider]) "title" []
      = resolveLoop [twitterProvider] "title" [] :=
  ⟨(claim_resolve_lowest_priority defaultProviders "title" pdExample).2.1 "T1" (by decide),
   (claim_resolve_lowest_priority defaultProviders "title" []).2.2.2
      openGraphProvider [twitterProvider] (by decide)⟩

/-- C9: a provider whose first accumulated value for the field is the
empty string is skipped by resolution (its answer is treated as absent);
consequently `resolveValue` never returns the empty string, and the
favicon of a metadata instance whose highest-priority provider accumulated
an empty-string `icon` is the literal default. -/
theorem claim_resolve_skips_empty (key : String) (pd : ProviderData) :
    (∀ (p : Provider) (rest : List Provider) (data : FieldMap) (vs : List String),
      p.getValue = getValueDefault →
      pdGet pd p.name = some data → fmGet data key = some vs → vs.head? = some "" →
      resolveLoop (p :: rest) key pd = resolveLoop rest key pd)
    ∧ (∀ (r : ProviderRegistry) (v : String),
        ProviderRegistry.resolveValue r key pd = some v → v ≠ "")
    ∧ Metadata.favicon ((Metadata.init (mkRegistry defaultProviders)).addData "openGraph" "icon" "")
        = "/favicon.ico" := by
  refine ⟨?_, ?_, ?_⟩
  · intro p rest data vs hg hd hf hh
    simp [resolveLoop, hd, hg, getValueDefault, hf, hh]
  · intro r v hv
    exact resolveLoop_ne_empty r.providers key pd v hv
  · decide

/-- C9 witness: an empty-string first value at the highest-priority
provider is skipped in favor of the next provider. -/
theorem claim_resolve_skips_empty_witness :
    resolveLoop (openGraphProvider :: [twitterProvider]) "icon"
        [("openGraph", [("icon", [""])]), ("twitter", [("icon", ["/t.ico"])])]
      = resolveLoop [twitterProvider] "icon"
        [("openGraph", [("icon", [""])]), ("twitter", [("icon", ["/t.ico"])])] :=
  (claim_resolve_skips_empty "icon"
      [("openGraph", [("icon", [""])]), ("twitter", [("icon", ["/t.ico"])])]).1
    openGraphProvider [twitterProvider] [("icon", [""])] [""]
    rfl (by decide) (by decide) rfl

/-- C8: the favicon getter returns the resolved `icon` value when defined,
else the resolved `shortcut icon` value when defined, else the literal
`/favicon.ico`; in particular the default whenever no provider (all using
the shared default resolver) ever supplied either field. -/
theorem claim_favicon_chain (m : Metadata) :
    (∀ v, m.resolveValue "icon" = some v → m.favicon = v)
    ∧ (m.resolveValue "icon" = none → ∀ v, m.resolveValue "shortcut icon" = some v →
        m.favicon = v)
    ∧ (m.resolveValue "icon" = none → m.resolveValue "shortcut icon" = none →
        m.favicon = "/favicon.ico")
    ∧ ((∀ p ∈ m.registry.providers, p.getValue = getValueDefault) →
       (∀ e ∈ m.providerData, fmGet e.2 "icon" = none ∧ fmGet e.2 "shortcut icon" = none) →
       m.favicon = "/favicon.ico") := by
  refine ⟨?_, ?_, ?_, ?_⟩
  · intro v hv
    have hne : v ≠ "" :=
      resolveLoop_ne_empty m.registry.providers "icon" m.providerData v hv
    unfold Metadata.favicon
    rw [hv]
    simp [jsOrStr, hne]
  · intro h1 v hv
    have hne : v ≠ "" :=
      resolveLoop_ne_empty m.registry.providers "shortcut icon" m.providerData v hv
    unfold Metadata.favicon
    rw [h1, hv]
    simp [jsOrStr, hne]
  · intro h1 h2
    unfold Metadata.favicon
    rw [h1, h2]
    rfl
  · intro hg hdata
    have h1 : m.resolveValue "icon" = none :=
      resolveValue_eq_none_of_no_field m.registry "icon" m.providerData hg
        (fun e he => (hdata e he).1)
    have h2 : m.resolveValue "shortcut icon" = none :=
      resolveValue_eq_none_of_no_field m.registry "shortcut icon" m.providerData hg
        (fun e he => (hdata e he).2)
    unfold Metadata.favicon
    rw [h1, h2]
    rfl

/-- C8 witness: the chain at concrete metadata instances, one per
fallback stage. -/
theorem claim_favicon_chain_witness :
    Metadata.favicon ((Metadata.init (mkRegistry defaultProviders)).addData
        "openGraph" "icon" "/i.png") = "/i.png"
    ∧ Metadata.favicon ((Metadata.init (mkRegistry defaultProviders)).addData
        "other" "shortcut icon" "/s.ico") = "/s.ico"
    ∧ Metadata.favicon (Metadata.init (mkRegistry defaultProviders)) = "/favicon.ico" :=
  ⟨(claim_favicon_chain _).1 "/i.png" (by decide),
   (claim_favicon_chain _).2.1 (by decide) "/s.ico" (by decide),
   (claim_favicon_chain _).2.2.1 (by decide) (by decide)⟩

/-- C4 counterexample: the claim says a `rel="alternate"` link is recorded
if and only if its `href` attribute is present, with title absent only
when the attribute is absent; but with a present-but-empty `href` the code
records nothing, and a present-but-empty `title` is recorded as absent. -/
theorem claim_feed_extraction_counterexample :
    (Scraper.scrapeDoc (mkRegistry [])
        [⟨"link", [("rel", "alternate"), ("type", "application/rss+xml"),
            ("title", "RSS"), ("href", "")], none⟩,
         ⟨"link", [("rel", "alternate"), ("type", "application/rss+xml"),
            ("title", ""), ("href", "/f.xml")], none⟩]).feeds
      = [{ title := none, type := "application/rss+xml", href := "/f.xml" }]
    ∧ Element.getAttribute ⟨"link", [("rel", "alternate"), ("type", "application/rss+xml"),
        ("title", "RSS"), ("href", "")], none⟩ "href" = some ""
    ∧ Element.getAttribute ⟨"link", [("rel", "alternate"), ("type", "application/rss+xml"),
        ("title", ""), ("href", "/f.xml")], none⟩ "title" = some "" := by
  decide

/-- C4 (amended): during traversal every `link` element with `rel` exactly
`alternate` is recorded as exactly one Feed record — title the `title`
attribute when present and non-empty (absent otherwise), type the `type`
attribute or the empty string when absent, href the `href` attribute — if
and only if its `href` attribute is present and non-empty; other such
links contribute zero records, and the feed list is computed without the
provider registry (feeds never pass through provider dispatch). -/
theorem claim_feed_extraction (reg reg' : ProviderRegistry) (d : Document) :
    (Scraper.scrapeDoc reg d).feeds = (querySelectorLinkAlternate d).filterMap feedRecordSpec
    ∧ (Scraper.scrapeDoc reg d).feeds = (Scraper.scrapeDoc reg' d).feeds := by
  refine ⟨scrapeDoc_feeds reg d, ?_⟩
  rw [scrapeDoc_feeds, scrapeDoc_feeds]

/-- C7: the only thrown failure of `Scraper.scrape` is the entry
type-check on a non-queryable input; on every queryable document the
scrape succeeds, with per-node misses and malformed embedded JSON-LD
(caught by the provider) represented as absent values, as the concrete
JsonLd evaluations show. -/
theorem claim_scrape_throws_only_on_bad_input (reg : ProviderRegistry) :
    (Scraper.scrape reg ScrapeInput.notQueryable = Except.error "DOM Document expected.")
    ∧ (∀ d : Document, Scraper.scrape reg (ScrapeInput.doc d) = Except.ok (Scraper.scrapeDoc reg d))
    ∧ jsonLdProvider.scrape ⟨"script", [("type", "application/ld+json")], some "\x7bnot json"⟩ = none
    ∧ jsonLdProvider.scrape ⟨"script", [("type", "application/ld+json")],
        some "\x7b\"@type\":\"Article\",\"headline\":\"T\"\x7d"⟩ = some ("title", "T") :=
  ⟨rfl, fun _ => rfl, by decide, by decide⟩
